import Mathlib

/-!
Shallow embedding of the mlflow-pyfunc-server reconciliation core
(`server.py`, `basehandler.py`) and proofs about its claimed properties.

Python dictionaries are embedded as insertion-ordered association lists
with unique keys; external effects (registry listing, artifact download,
schema introspection, the model's predict call) are passed in as explicit
oracle values, while every piece of pure control flow is translated
directly from the source.  A raised-and-uncaught Python exception is
modelled as an `Option String` (or `Except`) outcome.
-/

set_option autoImplicit false

namespace MPS

/-! ## Python values and dictionaries -/

/-- A Python value as it appears in schema examples and predict outputs.
Floats are carried as exact rationals: the only float the embedded code
ever produces is the literal `1.234` from the dtype sample table. -/
inductive PyVal where
  | pyNone : PyVal
  | pyInt : Int → PyVal
  | pyFloat : ℚ → PyVal
  | pyStr : String → PyVal
  | pyList : List PyVal → PyVal

/-- Insertion-ordered dictionary: `d[k] = v`.  An existing key keeps its
position and gets the new value (CPython semantics); a new key is
appended at the end. -/
def dictInsert {α : Type} (d : List (String × α)) (k : String) (v : α) :
    List (String × α) :=
  match d with
  | [] => [(k, v)]
  | p :: ps => if p.1 == k then (k, v) :: ps else p :: dictInsert ps k v

/-- `del d[k]` (no error if `k` is absent; callers in the source always
guard the deletion with a membership test). -/
def dictRemove {α : Type} (d : List (String × α)) (k : String) :
    List (String × α) :=
  d.filter (fun p => !(p.1 == k))

/-- `d[k]` as an option / `k in d` membership probe. -/
def dictLookup {α : Type} : List (String × α) → String → Option α
  | [], _ => none
  | p :: ps, k => if p.1 == k then some p.2 else dictLookup ps k

/-! ## urllib.parse.quote_plus -/

/-- Uppercase hex digit of a nibble. -/
def hexDigit (n : Nat) : Char :=
  if n < 10 then Char.ofNat (48 + n) else Char.ofNat (55 + n)

/-- UTF-8 bytes of one character, as naturals. -/
def utf8Bytes (c : Char) : List Nat :=
  let n := c.toNat
  if n < 128 then [n]
  else if n < 2048 then [192 + n / 64, 128 + n % 64]
  else if n < 65536 then [224 + n / 4096, 128 + (n / 64) % 64, 128 + n % 64]
  else [240 + n / 262144, 128 + (n / 4096) % 64, 128 + (n / 64) % 64,
        128 + n % 64]

/-- Characters `urllib` never quotes (`ALWAYS_SAFE`): ASCII alphanumerics
and `_.-~`. -/
def isSafeChar (c : Char) : Bool :=
  c.isAlpha || c.isDigit || c == '_' || c == '.' || c == '-' || c == '~'

/-- Percent-encoding of one character under `quote_plus` rules. -/
def quoteChar (c : Char) : String :=
  if isSafeChar c then String.singleton c
  else if c == ' ' then "+"
  else String.join ((utf8Bytes c).map
    (fun b => "%" ++ String.singleton (hexDigit (b / 16))
      ++ String.singleton (hexDigit (b % 16))))

/-- `urllib.parse.quote_plus`, as applied to model names in
`Server.update_models`. -/
def quotePlus (s : String) : String :=
  String.join (s.toList.map quoteChar)

/-! ## MLflow registry objects -/

/-- `mlflow.entities.model_registry.ModelVersion`, the fields the server
reads.  `version` is a string, exactly as MLflow delivers it. -/
structure MVersion where
  version : String
  run_id : String
  current_stage : String
  source : String
  creation_timestamp : Int
deriving DecidableEq, Repr

/-- `mlflow.entities.model_registry.RegisteredModel`; `tags` holds the
tag keys (`m.tags.keys()` is all the server consults). -/
structure RegisteredModel where
  name : String
  tags : List String
  description : String
  latest_versions : List MVersion
deriving DecidableEq, Repr

/-- `Server.get_version`: filter Production and Staging versions, prefer
Staging when configured, else Production, else the first listed version.
`none` models the uncaught `IndexError` of `m.latest_versions[0]` on an
empty version list. -/
def get_version (staging : Bool) (m : RegisteredModel) : Option MVersion :=
  let prod_models := m.latest_versions.filter
    (fun mm => mm.current_stage == "Production")
  let stage_models := m.latest_versions.filter
    (fun mm => mm.current_stage == "Staging")
  if staging && !stage_models.isEmpty then stage_models.head?
  else if !prod_models.isEmpty then prod_models.head?
  else m.latest_versions.head?

/-! ## Schema fields and example synthesis (`BaseHandler`) -/

/-- One element of `Schema.to_dict()`: a tensor spec carries a dtype
name and a shape, a column spec only a dtype name. -/
inductive SchemaEl where
  | tensor (dtype : String) (shape : List Int) (name : Option String)
  | col (dtype : String) (name : Option String)
deriving DecidableEq, Repr

/-- `BaseHandler.dtype_sample`, a fixed dtype → sample table; `none`
models the `KeyError` on a dtype outside the table. -/
def dtype_sample : String → Option PyVal
  | "float64" => some (.pyFloat 1.234)
  | "float32" => some (.pyFloat 1.234)
  | "int" => some (.pyInt 1)
  | "int64" => some (.pyInt 1)
  | "int32" => some (.pyInt 1)
  | "str" => some (.pyStr "A")
  | "object" => some (.pyStr "?")
  | _ => none

/-- `BaseHandler.get_nested`: an innermost dimension `d` yields the
sample repeated exactly `d` times; every outer dimension `d` wraps the
inner structure `max 1 d` times.  `none` models the two failure modes of
the source: unbounded recursion on an empty shape, and the `KeyError` of
`dtype_sample[dtype]`.  Python list repetition with a negative count
yields the empty list, hence `Int.toNat`. -/
def get_nested (dt : String) : List Int → Option PyVal
  | [] => none
  | [d] => (dtype_sample dt).map
      (fun s => .pyList (List.replicate d.toNat s))
  | d :: rest => (get_nested dt rest).map
      (fun inner => .pyList (List.replicate (max 1 d).toNat inner))

/-- `BaseHandler.get_example_el`: tensor fields get a synthesized nested
example, anything else gets Python `None`. -/
def get_example_el : SchemaEl → Option PyVal
  | .tensor dt shape _ => get_nested dt shape
  | .col _ _ => some .pyNone

/-- The nested example demanded by the claim, written from the claim's
words: at every depth `i` a list of length `max 1 d_i`, nesting depth
equal to the shape length, every leaf the dtype sample `s`.  These
conditions determine the value uniquely, so the claim holds at a shape
iff `get_nested` returns exactly this value. -/
def claimNested (s : PyVal) : List Int → PyVal
  | [] => s
  | d :: rest => .pyList (List.replicate (max 1 d).toNat (claimNested s rest))

/-- The nested example the source actually builds, written from the
amended claim's words: outer dimensions have length `max 1 d_i`, but the
innermost dimension has length exactly `d_(n-1)` (clamped at zero), with
the same leaves and depth. -/
def amendedNested (s : PyVal) : List Int → PyVal
  | [] => s
  | [d] => .pyList (List.replicate d.toNat s)
  | d :: rest => .pyList (List.replicate (max 1 d).toNat (amendedNested s rest))

/-! ## Environment provisioning (`BaseHandler._setup_model`) -/

/-- `needle` matches at the head of the haystack. -/
def leadEq : List Char → List Char → Bool
  | [], _ => true
  | _ :: _, [] => false
  | a :: as, b :: bs => a == b && leadEq as bs

/-- `needle` occurs somewhere in the haystack. -/
def subAt (needle : List Char) : List Char → Bool
  | [] => leadEq needle []
  | b :: bs => leadEq needle (b :: bs) || subAt needle bs

/-- Python's substring test `needle in hay`. -/
def containsSub (needle hay : String) : Bool :=
  subAt needle.toList hay.toList

/-- Python's `r.rstrip("\n")`: drop trailing newline characters. -/
def stripNl (s : String) : String :=
  String.mk ((s.toList.reverse.dropWhile (fun c => c == '\n')).reverse)

/-- One external process started by `_setup_model` via `subprocess.run`,
in invocation order: virtual-env creation, dependency install with the
filtered requirement list, a bundled package's own requirement install,
a bundled package's build-and-install. -/
inductive SetupCmd where
  | venvCreate
  | pipInstallReqs (reqs : List String)
  | pipInstallLibReqs (lib : String)
  | libBuildInstall (lib : String)
deriving DecidableEq, Repr

/-- The provisioning scenario `_setup_model` runs against: the model's
bundled `requirements.txt` (when present), the platform default
requirement list, the bundled code packages under `code/` (basename and
whether each has its own `requirements.txt`), and an oracle giving the
exit status of the i-th spawned process. -/
structure SetupEnv where
  reqFile : Option (List String)
  defaultReqs : List String
  libFolders : List (String × Bool)
  exitStatus : Nat → Int

/-- `BaseHandler._setup_model` after the artifact download: the sequence
of processes it spawns and whether it completes normally.  Requirements
are the bundled file's lines when present, else the defaults; every line
containing a bundled package's basename as a substring is dropped, then
trailing newlines are stripped.  The `subprocess.run` results are bound
to local variables the source never reads, so the outcome cannot depend
on `exitStatus`. -/
def setup_model (env : SetupEnv) : List SetupCmd × Bool :=
  let req0 := match env.reqFile with
    | some ls => ls
    | none => env.defaultReqs
  let req1 := env.libFolders.foldl
    (fun acc lf => acc.filter (fun r => !(containsSub lf.1 r))) req0
  let req2 := req1.map stripNl
  let libCmds := (env.libFolders.map
    (fun lf => (if lf.2 then [SetupCmd.pipInstallLibReqs lf.1] else [])
      ++ [SetupCmd.libBuildInstall lf.1])).flatten
  (SetupCmd.venvCreate :: SetupCmd.pipInstallReqs req2 :: libCmds, true)

/-! ## The Handler and its HTTP-facing operations -/

/-- The serving state of one model kept by a `BaseHandler`, restricted
to the durable fields the embedded operations read.  `version` is the
MLflow version string, converted with `int(...)` only inside
`apply_model`. -/
structure Handler where
  name : String
  version : String
  run_id : String
  latest_versions : List MVersion
  input_schema : List SchemaEl
  output_schema : List SchemaEl
  description : String
  creation : String
deriving DecidableEq, Repr

/-- The introspection outcome of a successful `BaseHandler.__init__`:
the declared schemas (empty when none could be loaded) and the rendered
creation time.  Everything else about the new Handler is forced by the
descriptor and the chosen version. -/
structure HandlerIntro where
  input_schema : List SchemaEl
  output_schema : List SchemaEl
  creation : String
deriving DecidableEq, Repr

/-- The Handler built by a successful `BaseHandler.__init__` for
descriptor `m` at version `mv`: name, run id and version are copied from
its arguments, and the two synthetic provenance fields are appended to
the output schema (`x__version` as an int tensor, `x__mlflow_id` as a
str tensor, both of shape `[1]`). -/
def mkHandler (m : RegisteredModel) (mv : MVersion) (hi : HandlerIntro) :
    Handler :=
  { name := m.name
    version := mv.version
    run_id := mv.run_id
    latest_versions := m.latest_versions
    input_schema := hi.input_schema
    output_schema := hi.output_schema
      ++ [.tensor "int" [1] (some "x__version"),
          .tensor "str" [1] (some "x__mlflow_id")]
    description := m.description
    creation := hi.creation }

/-- A value of the `modelinfo` response map. -/
inductive InfoVal where
  | str (s : String)
  | vers (vs : List MVersion)
  | schema (els : List SchemaEl)
deriving DecidableEq, Repr

/-- `BaseHandler.info`: the metadata map returned for one model, keys in
source order. -/
def info (h : Handler) : List (String × InfoVal) :=
  [("name", .str h.name),
   ("version", .str h.version),
   ("latest_versions", .vers h.latest_versions),
   ("input", .schema h.input_schema),
   ("output", .schema h.output_schema),
   ("description", .str h.description),
   ("creation", .str h.creation)]

/-- The result of `self.model.predict(...)` as `parse_output` sees it: a
pandas DataFrame, a field-keyed dict, or anything else (on which
`.items()` raises). -/
inductive ModelOut where
  | frame (cols : List (String × List PyVal))
  | keyed (entries : List (String × PyVal))
  | plain (v : PyVal)

/-- `BaseHandler.parse_output`: a DataFrame becomes its column dict, a
dict is kept entry by entry (`tolist()` on an array value is the
identity in this value domain), anything else raises. -/
def parse_output : ModelOut → Except String (List (String × PyVal))
  | .frame cols => .ok (cols.map (fun p => (p.1, PyVal.pyList p.2)))
  | .keyed es => .ok es
  | .plain _ => .error "AttributeError"

/-- The coerced input batch handed to the predictor: `none` stands for
the `np.array([])` used when the model declares no inputs. -/
def NpIn : Type := Option (List (String × PyVal))

/-- The outcome of one `apply_model` call: the three tagged client
errors raised as structured 442 responses, or an exception that escapes
the method (the `int(...)` conversion of a non-numeric version string). -/
inductive ApplyFailure where
  | parseInputErr (msg : String)
  | predictErr (msg : String)
  | parseOutputErr (msg : String)
  | uncaught (msg : String)
deriving DecidableEq, Repr

/-- Accumulate a decimal digit string. -/
def natOfDigits (ds : List Char) : Nat :=
  ds.foldl (fun n c => 10 * n + (c.toNat - 48)) 0

/-- Python's `int(s)` on a version string: an optional leading minus
sign followed by at least one decimal digit (surrounding whitespace, a
plus sign and underscore separators, which never occur in MLflow version
strings, are not modelled); `none` is the uncaught `ValueError`. -/
def pyInt? (s : String) : Option Int :=
  match s.toList with
  | [] => none
  | c :: cs =>
    if c == '-' then
      if !cs.isEmpty && cs.all (fun d => d.isDigit) then
        some (-(natOfDigits cs : Int))
      else none
    else
      if (c :: cs).all (fun d => d.isDigit) then
        some ((natOfDigits (c :: cs) : Int))
      else none

/-- The input-coercion stage of `apply_model`: when the input schema is
empty the batch is `np.array([])` and the request body is never
consulted (the source's guard `input_schema_class is None or
len(...) == 0` reduces to the length test, since the schema object is
always truthy); otherwise the oracle outcome of `numpy_input` is used
and its failure becomes the tagged parse-input error. -/
def npInputOf (h : Handler)
    (npRes : Except String (List (String × PyVal))) :
    Except ApplyFailure NpIn :=
  if h.input_schema.isEmpty then .ok none
  else
    match npRes with
    | .ok d => .ok (some d)
    | .error e => .error (.parseInputErr e)

/-- `BaseHandler.apply_model`.  The conversion of the raw request body
by `numpy_input` and the predictor call are external effects, passed as
oracles `npRes` and `predict`.  On success the two provenance entries
are written into the output dict last, overriding any same-named
field. -/
def apply_model (h : Handler)
    (npRes : Except String (List (String × PyVal)))
    (predict : NpIn → Except String ModelOut) :
    Except ApplyFailure (List (String × PyVal)) :=
  match npInputOf h npRes with
  | .error e => .error e
  | .ok np =>
    match predict np with
    | .error e => .error (.predictErr e)
    | .ok mo =>
      match parse_output mo with
      | .error e => .error (.parseOutputErr e)
      | .ok out =>
        match pyInt? h.version with
        | none => .error (.uncaught "ValueError")
        | some vi =>
          .ok (dictInsert
            (dictInsert out "x__version" (.pyList [.pyInt vi]))
            "x__mlflow_id" (.pyList [.pyStr h.run_id]))

/-! ## Server state and the reconciliation pass (`Server.update_models`) -/

/-- The configuration fields `update_models` and the endpoints read. -/
structure Config where
  basepath : String
  staging : Bool
  tags : List String
  token : List String
deriving DecidableEq, Repr

/-- The server's shared mutable state: the name→Handler map, the
name→error map, and the published route table (`app.routes`, by path). -/
structure ServerState where
  model_dict : List (String × Handler)
  error_dict : List (String × String)
  routes : List String
deriving DecidableEq, Repr

/-- The `/modelinfo/{model}` endpoint body: the Handler's info map when
one is active, else the empty map — in both cases a normal (200)
response, which is why this is a total function. -/
def modelinfo (st : ServerState) (model : String) : List (String × InfoVal) :=
  match dictLookup st.model_dict model with
  | some h => info h
  | none => []

/-- The skip test of the reconciliation loop: an active Handler exists
under this (quoted) name and already serves the desired run id. -/
def handlerCurrent (st : ServerState) (name : String) (mv : MVersion) : Bool :=
  match dictLookup st.model_dict name with
  | some h => mv.run_id == h.run_id
  | none => false

/-- The tag filter: a tag allow-list is configured and the descriptor
carries none of the listed tag keys. -/
def tagSkip (cfg : Config) (m : RegisteredModel) : Bool :=
  !cfg.tags.isEmpty && cfg.tags.all (fun tt => !(m.tags.contains tt))

/-- The indices of the routes matching the model's path, computed over
the route list before any deletion — exactly the list comprehension in
the source. -/
def matchIdxs (routes : List String) (target : String) : List Nat :=
  ((routes.enum).filter (fun p => p.2 == target)).map (fun p => p.1)

/-- Sequential `del routes[i]` over a precomputed index list.  The Bool
is false when a deletion hits an out-of-range index (`IndexError` after
the earlier deletions shifted the list); the partially deleted list is
kept, as the Python list mutation would leave it. -/
def delIdxs : List String → List Nat → List String × Bool
  | rs, [] => (rs, true)
  | rs, i :: is =>
    if i < rs.length then delIdxs (rs.eraseIdx i) is else (rs, false)

/-- The old-route deletion step of `update_models`. -/
def removeRoutes (routes : List String) (target : String) :
    List String × Bool :=
  delIdxs routes (matchIdxs routes target)

/-- The observable outcome of (part of) a reconciliation pass: the
resulting server state, the names for which a `BaseHandler` construction
(and hence provisioning) was attempted, and the message of an exception
that escaped the pass, if any. -/
structure PassResult where
  state : ServerState
  buildCalls : List String
  uncaught : Option String
deriving DecidableEq, Repr

/-- The body of the `for m in all_models` loop for one descriptor.
Version selection, the skip tests and the route deletion run outside the
`try`; only the `BaseHandler` construction and the bookkeeping after it
are guarded.  On success the new route is registered (under the RAW
model name, as `register_route` does), the Handler is swapped in under
the QUOTED name and a stale per-model error is cleared; on failure the
error is recorded under the fixed literal key `"name"`. -/
def stepModel (cfg : Config)
    (build : RegisteredModel → MVersion → Except String HandlerIntro)
    (st : ServerState) (m : RegisteredModel) : PassResult :=
  let name := quotePlus m.name
  match get_version cfg.staging m with
  | none => ⟨st, [], some "IndexError"⟩
  | some mv =>
    if handlerCurrent st name mv then ⟨st, [], none⟩
    else if tagSkip cfg m then ⟨st, [], none⟩
    else
      let target := cfg.basepath ++ "/" ++ name
      let rem := removeRoutes st.routes target
      if !rem.2 then ⟨{ st with routes := rem.1 }, [], some "IndexError"⟩
      else
        match build m mv with
        | .ok hi =>
          ⟨{ model_dict := dictInsert st.model_dict name (mkHandler m mv hi)
             error_dict := dictRemove st.error_dict name
             routes := rem.1 ++ [cfg.basepath ++ "/" ++ m.name] },
           [name], none⟩
        | .error ex =>
          ⟨{ st with
             routes := rem.1
             error_dict := dictInsert st.error_dict "name" ex },
           [name], none⟩

/-- The loop over the listed descriptors.  An exception escaping a step
aborts the loop there (later descriptors are not processed); the state
mutations already performed remain. -/
def runModels (cfg : Config)
    (build : RegisteredModel → MVersion → Except String HandlerIntro) :
    List RegisteredModel → ServerState → PassResult
  | [], st => ⟨st, [], none⟩
  | m :: ms, st =>
    let r := stepModel cfg build st m
    match r.uncaught with
    | some e => ⟨r.state, r.buildCalls, some e⟩
    | none =>
      let rest := runModels cfg build ms r.state
      ⟨rest.state, r.buildCalls ++ rest.buildCalls, rest.uncaught⟩

/-- `Server.update_models`.  The registry listing is an oracle: on
failure `all_models` stays `[]`, the reserved key `"server"` records the
message and the loop body never runs; on success the reserved key is
deleted (when present) before the loop. -/
def update_models (cfg : Config)
    (build : RegisteredModel → MVersion → Except String HandlerIntro)
    (registry : Except String (List RegisteredModel))
    (st : ServerState) : PassResult :=
  match registry with
  | .error ex =>
    ⟨{ st with error_dict := dictInsert st.error_dict "server" ex }, [], none⟩
  | .ok ms =>
    runModels cfg build ms
      { st with error_dict := dictRemove st.error_dict "server" }

/-- The convergence condition after a fully successful pass: every
listed model either already has an active Handler at its desired run id,
or is filtered out by the tag allow-list (and in both cases its desired
version is computable). -/
def Converged (cfg : Config) (st : ServerState)
    (ms : List RegisteredModel) : Prop :=
  ∀ m ∈ ms, ∃ mv, get_version cfg.staging m = some mv ∧
    (handlerCurrent st (quotePlus m.name) mv = true ∨ tagSkip cfg m = true)

/-! ## Concrete scenario inputs used by witnesses and counterexamples -/

/-- A default configuration: empty base path, no staging preference, no
tag allow-list, no token allow-list. -/
def cfg0 : Config := ⟨"", false, [], []⟩

/-- A Production version `1` with run id `r1`. -/
def v1 : MVersion := ⟨"1", "r1", "Production", "s3/a", 0⟩

/-- A Production version `2` with run id `r2`, superseding `v1`. -/
def v2 : MVersion := ⟨"2", "r2", "Production", "s3/a2", 0⟩

/-- Model `a` at version `v1`. -/
def mA1 : RegisteredModel := ⟨"a", [], "", [v1]⟩

/-- Model `a` after moving to version `v2`. -/
def mA2 : RegisteredModel := ⟨"a", [], "", [v2]⟩

/-- A second model `b` with one Production version. -/
def mB1 : RegisteredModel := ⟨"b", [], "", [⟨"1", "rb", "Production", "s3/b", 0⟩]⟩

/-- A descriptor whose `latest_versions` list is empty. -/
def mEmptyVers : RegisteredModel := ⟨"e", [], "", []⟩

/-- A version with stage `None`. -/
def vN : MVersion := ⟨"1", "rn", "None", "s3/m", 0⟩

/-- A Production version of the mixed-stage model. -/
def vP : MVersion := ⟨"2", "rp", "Production", "s3/m", 0⟩

/-- A Staging version of the mixed-stage model. -/
def vS : MVersion := ⟨"3", "rs", "Staging", "s3/m", 0⟩

/-- A model with one version in each stage, listed None first. -/
def mMix : RegisteredModel := ⟨"m", [], "", [vN, vP, vS]⟩

/-- The active Handler of model `a` serving run id `r1`. -/
def hA1 : Handler := ⟨"a", "1", "r1", [v1], [], [], "", ""⟩

/-- A build oracle that always fails with message `boom`. -/
def buildFail : RegisteredModel → MVersion → Except String HandlerIntro :=
  fun _ _ => .error "boom"

/-- A build oracle failing with a message naming the model, so the two
failure messages of two models are distinguishable. -/
def buildFailNamed : RegisteredModel → MVersion → Except String HandlerIntro :=
  fun m _ => .error ("fail " ++ m.name)

/-- A trivial introspection result. -/
def introEx : HandlerIntro := ⟨[], [], ""⟩

/-- A build oracle that always succeeds. -/
def buildOk : RegisteredModel → MVersion → Except String HandlerIntro :=
  fun _ _ => .ok introEx

/-- The empty server state. -/
def st0 : ServerState := ⟨[], [], []⟩

/-- A server state already serving model `a` at run id `r1`, with its
route published. -/
def stA : ServerState := ⟨[("a", hA1)], [], ["/a"]⟩

/-- A Handler used by the `apply_model` and `modelinfo` witnesses. -/
def hEx : Handler := ⟨"a", "1", "r1", [], [], [], "", ""⟩

/-- A predictor whose output itself contains an `x__version` field, to
exercise the provenance override. -/
def predictEx : NpIn → Except String ModelOut :=
  fun _ => .ok (.keyed [("x__version", .pyList [.pyInt 999]), ("y", .pyInt 5)])

/-- The output `apply_model` produces for `hEx` and `predictEx`: the
model's colliding `x__version` value is overridden in place and the run
id is appended. -/
def outEx : List (String × PyVal) :=
  [("x__version", .pyList [.pyInt 1]), ("y", .pyInt 5),
   ("x__mlflow_id", .pyList [.pyStr "r1"])]

/-! ## Dictionary lemmas -/

theorem dictLookup_insert_self {α : Type} (d : List (String × α))
    (k : String) (v : α) : dictLookup (dictInsert d k v) k = some v := by
  induction d with
  | nil => simp [dictInsert, dictLookup]
  | cons p ps ih =>
    by_cases h : p.1 == k
    · simp [dictInsert, h, dictLookup]
    · simp [dictInsert, h, dictLookup, ih]

theorem dictLookup_insert_of_ne {α : Type} (d : List (String × α))
    (k k' : String) (v : α) (hne : k' ≠ k) :
    dictLookup (dictInsert d k v) k' = dictLookup d k' := by
  induction d with
  | nil => simp [dictInsert, dictLookup, hne, beq_eq_false_iff_ne,
      (Ne.symm hne : k ≠ k')]
  | cons p ps ih =>
    by_cases h : p.1 == k
    · have hp : p.1 = k := by simpa using h
      simp [dictInsert, h, dictLookup, hp, beq_eq_false_iff_ne,
        (Ne.symm hne : k ≠ k')]
    · simp [dictInsert, h, dictLookup, ih]

theorem dictLookup_remove_self {α : Type} (d : List (String × α))
    (k : String) : dictLookup (dictRemove d k) k = none := by
  induction d with
  | nil => rfl
  | cons p ps ih =>
    by_cases h : p.1 == k
    · simpa [dictRemove, h] using ih
    · simpa [dictRemove, h, dictLookup] using ih

theorem dictLookup_remove_none {α : Type} (d : List (String × α))
    (k k' : String) (h : dictLookup d k' = none) :
    dictLookup (dictRemove d k) k' = none := by
  induction d with
  | nil => rfl
  | cons p ps ih =>
    by_cases hk : p.1 == k
    · have h' : dictLookup ps k' = none := by
        by_cases hk' : p.1 == k'
        · simp [dictLookup, hk'] at h
        · simpa [dictLookup, hk'] using h
      simpa [dictRemove, hk] using ih h'
    · by_cases hk' : p.1 == k'
      · simp [dictLookup, hk'] at h
      · have h' : dictLookup ps k' = none := by simpa [dictLookup, hk'] using h
        simpa [dictRemove, hk, dictLookup, hk'] using ih h'

theorem head?_filter_eq_find? {α : Type} (p : α → Bool) (l : List α) :
    (l.filter p).head? = l.find? p := by
  induction l with
  | nil => rfl
  | cons a as ih =>
    by_cases h : p a <;> simp [List.filter_cons, List.find?_cons, h, ih]

/-! ## C5: synthesized tensor examples -/

/-- C5, counterexample: at shape `[0]` the source synthesizes the empty
list (`[sample]*0`), while the claim demands a list of length
`max 1 0 = 1` at that depth — i.e. exactly `claimNested` of the float64
sample.  The claim as stated is therefore false at the one-dimensional
shape `[0]`. -/
theorem get_nested_shape_zero_refutes_claim :
    get_nested "float64" [0] = some (.pyList []) ∧
    get_nested "float64" [0] ≠ some (claimNested (.pyFloat 1.234) [0]) := by
  refine ⟨rfl, ?_⟩
  intro h
  rw [(rfl : get_nested "float64" [0] = some (.pyList []))] at h
  have h2 : PyVal.pyList [] = claimNested (.pyFloat 1.234) [0] :=
    Option.some.inj h
  rw [(rfl : claimNested (.pyFloat 1.234) [0]
    = .pyList [.pyFloat 1.234])] at h2
  injection h2 with h3
  exact List.cons_ne_nil _ _ h3.symm

/-- C5, amended: for every dtype of the sample table and every non-empty
shape, the synthesized example is exactly `amendedNested`: at every
outer depth `i` the list length is `max 1 d_i`, at the innermost depth
the length is exactly `d_(n-1)` (clamped at zero, so a trailing zero
dimension yields an empty innermost list rather than one sample), the
nesting depth is the shape length and every leaf is the dtype sample. -/
theorem get_nested_builds_amendedNested (dt : String) (s : PyVal)
    (hs : dtype_sample dt = some s) (shape : List Int) (hne : shape ≠ []) :
    get_nested dt shape = some (amendedNested s shape) := by
  induction shape with
  | nil => exact absurd rfl hne
  | cons d rest ih =>
    cases rest with
    | nil => simp [get_nested, amendedNested, hs]
    | cons d2 r2 =>
      have h2 := ih (by simp)
      simp only [get_nested, amendedNested, h2]
      rfl

/-- C5, witness: the amended characterization evaluated at dtype
`int64` and shape `[2, 3]`. -/
theorem get_nested_builds_amendedNested_witness :
    get_nested "int64" [2, 3] = some (amendedNested (.pyInt 1) [2, 3]) :=
  get_nested_builds_amendedNested "int64" (.pyInt 1) rfl [2, 3] (by simp)

/-! ## C3: provisioning never checks exit statuses -/

/-- C3: `_setup_model` binds every `subprocess.run` result to a variable
it never reads, so provisioning completes normally whatever the exit
statuses are and its behaviour is independent of the `exitStatus`
oracle; concretely, even when the virtual-env creation (and every later
process) exits with status 1, the dependency install still runs and the
whole provisioning attempt reports success instead of raising a
ProvisioningFailure. -/
theorem setup_model_ignores_exit_status :
    (∀ env : SetupEnv, (setup_model env).2 = true) ∧
    (∀ (env : SetupEnv) (f : Nat → Int),
      setup_model { env with exitStatus := f } = setup_model env) ∧
    setup_model ⟨none, ["mlflow"], [], fun _ => 1⟩
      = ([.venvCreate, .pipInstallReqs ["mlflow"]], true) :=
  ⟨fun _ => rfl, fun _ _ => rfl, rfl⟩

/-! ## C6: provenance fields on every successful predict response -/

/-- C6: whenever `apply_model` succeeds, the returned mapping holds
`x__version` as the one-element list of the Handler's version converted
to an integer and `x__mlflow_id` as the one-element list of its run id;
because these two entries are written into the output dict last, they
override any same-named field the model produced. -/
theorem apply_model_provenance (h : Handler)
    (npRes : Except String (List (String × PyVal)))
    (predict : NpIn → Except String ModelOut)
    (out : List (String × PyVal))
    (hok : apply_model h npRes predict = .ok out) :
    ∃ vi : Int, pyInt? h.version = some vi ∧
      dictLookup out "x__version" = some (.pyList [.pyInt vi]) ∧
      dictLookup out "x__mlflow_id" = some (.pyList [.pyStr h.run_id]) := by
  unfold apply_model at hok
  split at hok
  · simp at hok
  · split at hok
    · simp at hok
    · split at hok
      · simp at hok
      · split at hok
        · simp at hok
        · rename_i np mo out0 vi hvi
          simp only [Except.ok.injEq] at hok
          refine ⟨vi, hvi, ?_, ?_⟩
          · rw [← hok,
              dictLookup_insert_of_ne _ _ _ _ (by decide),
              dictLookup_insert_self]
          · rw [← hok, dictLookup_insert_self]

/-- C6, witness: a Handler at version `1` / run `r1` whose predictor
output itself contains an `x__version` field with value `[999]`; the
successful response carries `x__version = [1]` (the synthetic value
overrides the model's) and `x__mlflow_id = ["r1"]`. -/
theorem apply_model_provenance_witness :
    ∃ vi : Int, pyInt? hEx.version = some vi ∧
      dictLookup outEx "x__version" = some (.pyList [.pyInt vi]) ∧
      dictLookup outEx "x__mlflow_id" = some (.pyList [.pyStr hEx.run_id]) :=
  apply_model_provenance hEx (.error "unused") predictEx outEx rfl

/-! ## C10: the modelinfo endpoint -/

/-- C10: `GET /modelinfo/{name}` returns the empty map — as a normal
response, `modelinfo` being a total function — when no Handler is active
under `name`, and otherwise returns the active Handler's info map, whose
entries are the Handler's name, version, latest versions, input schema,
output schema, description and creation time. -/
theorem modelinfo_contract (st : ServerState) (name : String) :
    (dictLookup st.model_dict name = none → modelinfo st name = []) ∧
    (∀ h : Handler, dictLookup st.model_dict name = some h →
      modelinfo st name = info h ∧
      dictLookup (info h) "name" = some (.str h.name) ∧
      dictLookup (info h) "version" = some (.str h.version) ∧
      dictLookup (info h) "latest_versions" = some (.vers h.latest_versions) ∧
      dictLookup (info h) "input" = some (.schema h.input_schema) ∧
      dictLookup (info h) "output" = some (.schema h.output_schema) ∧
      dictLookup (info h) "description" = some (.str h.description) ∧
      dictLookup (info h) "creation" = some (.str h.creation)) := by
  constructor
  · intro hn
    simp [modelinfo, hn]
  · intro h hh
    exact ⟨by simp [modelinfo, hh], rfl, rfl, rfl, rfl, rfl, rfl, rfl⟩

/-- C10, witness: on a state serving only model `a`, an unknown name
yields the empty map and `a` yields its Handler's info map. -/
theorem modelinfo_contract_witness :
    modelinfo ⟨[("a", hEx)], [], []⟩ "zzz" = [] ∧
    modelinfo ⟨[("a", hEx)], [], []⟩ "a" = info hEx :=
  ⟨(modelinfo_contract ⟨[("a", hEx)], [], []⟩ "zzz").1 rfl,
   ((modelinfo_contract ⟨[("a", hEx)], [], []⟩ "a").2 hEx rfl).1⟩

/-! ## C8: deterministic stage-preference resolution -/

/-- C8: on a descriptor with at least one listed version, `get_version`
returns a version, and it is the first listed Staging version when the
staging flag is set and some Staging version exists; else the first
listed Production version when one exists; else the first listed
version.  Being a pure function of the flag and the descriptor, the
selection is deterministic. -/
theorem get_version_resolution (staging : Bool) (m : RegisteredModel)
    (hne : m.latest_versions ≠ []) :
    ∃ v, get_version staging m = some v ∧
      ((staging = true ∧ ∃ x ∈ m.latest_versions, x.current_stage = "Staging") →
        m.latest_versions.find? (fun x => x.current_stage == "Staging")
          = some v) ∧
      (¬(staging = true ∧ ∃ x ∈ m.latest_versions, x.current_stage = "Staging") →
        (∃ x ∈ m.latest_versions, x.current_stage = "Production") →
        m.latest_versions.find? (fun x => x.current_stage == "Production")
          = some v) ∧
      (¬(staging = true ∧ ∃ x ∈ m.latest_versions, x.current_stage = "Staging") →
        ¬(∃ x ∈ m.latest_versions, x.current_stage = "Production") →
        m.latest_versions.head? = some v) := by
  by_cases h1 : staging = true
    ∧ ∃ x ∈ m.latest_versions, x.current_stage = "Staging"
  · have hfil : m.latest_versions.filter
        (fun mm => mm.current_stage == "Staging") ≠ [] := by
      obtain ⟨x, hx, hxs⟩ := h1.2
      intro he
      have := List.filter_eq_nil_iff.mp he x hx
      simp [hxs] at this
    obtain ⟨v, hv⟩ : ∃ v, (m.latest_versions.filter
        (fun mm => mm.current_stage == "Staging")).head? = some v := by
      cases he : m.latest_versions.filter
          (fun mm => mm.current_stage == "Staging") with
      | nil => exact absurd he hfil
      | cons a l => exact ⟨a, rfl⟩
    refine ⟨v, ?_, fun _ => ?_, fun hn => absurd h1 hn, fun hn => absurd h1 hn⟩
    · unfold get_version
      rw [h1.1]
      simp only [Bool.true_and]
      rw [if_pos (by simpa [List.isEmpty_iff] using hfil)]
      exact hv
    · rw [← head?_filter_eq_find?]
      exact hv
  · have hcond : (staging && !(m.latest_versions.filter
        (fun mm => mm.current_stage == "Staging")).isEmpty) = false := by
      cases hst : staging with
      | false => simp
      | true =>
        simp only [Bool.true_and]
        have : m.latest_versions.filter
            (fun mm => mm.current_stage == "Staging") = [] := by
          rw [List.filter_eq_nil_iff]
          intro x hx
          simp only [beq_iff_eq]
          intro hxs
          exact h1 ⟨hst, x, hx, hxs⟩
        simp [this]
    by_cases h2 : ∃ x ∈ m.latest_versions, x.current_stage = "Production"
    · have hfil : m.latest_versions.filter
          (fun mm => mm.current_stage == "Production") ≠ [] := by
        obtain ⟨x, hx, hxs⟩ := h2
        intro he
        have := List.filter_eq_nil_iff.mp he x hx
        simp [hxs] at this
      obtain ⟨v, hv⟩ : ∃ v, (m.latest_versions.filter
          (fun mm => mm.current_stage == "Production")).head? = some v := by
        cases he : m.latest_versions.filter
            (fun mm => mm.current_stage == "Production") with
        | nil => exact absurd he hfil
        | cons a l => exact ⟨a, rfl⟩
      refine ⟨v, ?_, fun hc => absurd hc h1, fun _ _ => ?_,
        fun _ hn => absurd h2 hn⟩
      · simp only [get_version]
        rw [hcond, if_neg (by simp),
          if_pos (by simpa [List.isEmpty_iff] using hfil)]
        exact hv
      · rw [← head?_filter_eq_find?]
        exact hv
    · have hfil : m.latest_versions.filter
          (fun mm => mm.current_stage == "Production") = [] := by
        rw [List.filter_eq_nil_iff]
        intro x hx
        simp only [beq_iff_eq]
        intro hxs
        exact h2 ⟨x, hx, hxs⟩
      obtain ⟨v, hv⟩ : ∃ v, m.latest_versions.head? = some v := by
        cases he : m.latest_versions with
        | nil => exact absurd he hne
        | cons a l => exact ⟨a, rfl⟩
      refine ⟨v, ?_, fun hc => absurd hc h1, fun _ hc => absurd hc h2,
        fun _ _ => hv⟩
      simp only [get_version]
      rw [hcond, if_neg (by simp), if_neg (by simp [hfil])]
      exact hv

/-- C8, witness: with the staging flag set, a model listing a None, a
Production and a Staging version resolves as the theorem states (to the
Staging version). -/
theorem get_version_resolution_witness :
    ∃ v, get_version true mMix = some v ∧
      ((true = true ∧ ∃ x ∈ mMix.latest_versions, x.current_stage = "Staging") →
        mMix.latest_versions.find? (fun x => x.current_stage == "Staging")
          = some v) ∧
      (¬(true = true ∧ ∃ x ∈ mMix.latest_versions, x.current_stage = "Staging") →
        (∃ x ∈ mMix.latest_versions, x.current_stage = "Production") →
        mMix.latest_versions.find? (fun x => x.current_stage == "Production")
          = some v) ∧
      (¬(true = true ∧ ∃ x ∈ mMix.latest_versions, x.current_stage = "Staging") →
        ¬(∃ x ∈ mMix.latest_versions, x.current_stage = "Production") →
        mMix.latest_versions.head? = some v) :=
  get_version_resolution true mMix (by simp [mMix])

/-! ## Reconciliation-step lemmas -/

theorem stepModel_noop (cfg : Config)
    (build : RegisteredModel → MVersion → Except String HandlerIntro)
    (st : ServerState) (m : RegisteredModel) (mv : MVersion)
    (hv : get_version cfg.staging m = some mv)
    (hor : handlerCurrent st (quotePlus m.name) mv = true
      ∨ tagSkip cfg m = true) :
    stepModel cfg build st m = ⟨st, [], none⟩ := by
  simp only [stepModel, hv]
  rcases hor with hc | ht
  · rw [if_pos hc]
  · by_cases hc : handlerCurrent st (quotePlus m.name) mv = true
    · rw [if_pos hc]
    · rw [if_neg hc, if_pos ht]

theorem runModels_noop_of_converged (cfg : Config)
    (build : RegisteredModel → MVersion → Except String HandlerIntro)
    (ms : List RegisteredModel) (st : ServerState)
    (hc : Converged cfg st ms) :
    runModels cfg build ms st = ⟨st, [], none⟩ := by
  induction ms with
  | nil => rfl
  | cons m ms ih =>
    obtain ⟨mv, hv, hor⟩ := hc m (List.mem_cons_self m ms)
    have hstep := stepModel_noop cfg build st m mv hv hor
    have hrest := ih (fun m' hm' => hc m' (List.mem_cons_of_mem m hm'))
    simp only [runModels, hstep, hrest]
    rfl

theorem stepModel_uncaught_none (cfg : Config)
    (build : RegisteredModel → MVersion → Except String HandlerIntro)
    (st : ServerState) (m : RegisteredModel) (mv : MVersion)
    (hv : get_version cfg.staging m = some mv)
    (hrem : (removeRoutes st.routes
      (cfg.basepath ++ "/" ++ quotePlus m.name)).2 = true) :
    (stepModel cfg build st m).uncaught = none := by
  simp only [stepModel, hv]
  by_cases hc : handlerCurrent st (quotePlus m.name) mv = true
  · rw [if_pos hc]
  · rw [if_neg hc]
    by_cases ht : tagSkip cfg m = true
    · rw [if_pos ht]
    · rw [if_neg ht, if_neg (by simp [hrem])]
      cases build m mv <;> rfl

theorem stepModel_error_dict_no_server (cfg : Config)
    (build : RegisteredModel → MVersion → Except String HandlerIntro)
    (st : ServerState) (m : RegisteredModel)
    (h : dictLookup st.error_dict "server" = none) :
    dictLookup (stepModel cfg build st m).state.error_dict "server" = none := by
  cases hv : get_version cfg.staging m with
  | none => simp only [stepModel, hv]; exact h
  | some mv =>
    simp only [stepModel, hv]
    by_cases hc : handlerCurrent st (quotePlus m.name) mv = true
    · rw [if_pos hc]; exact h
    · rw [if_neg hc]
      by_cases ht : tagSkip cfg m = true
      · rw [if_pos ht]; exact h
      · rw [if_neg ht]
        by_cases hr : (removeRoutes st.routes
            (cfg.basepath ++ "/" ++ quotePlus m.name)).2 = true
        · rw [if_neg (by simp [hr])]
          cases build m mv with
          | ok hi =>
            simpa using dictLookup_remove_none st.error_dict
              (quotePlus m.name) "server" h
          | error ex =>
            simpa using
              (dictLookup_insert_of_ne st.error_dict "name" "server" ex
                (by decide)).trans h
        · rw [if_pos (by simpa using hr)]
          exact h

theorem runModels_error_dict_no_server (cfg : Config)
    (build : RegisteredModel → MVersion → Except String HandlerIntro)
    (ms : List RegisteredModel) :
    ∀ st : ServerState, dictLookup st.error_dict "server" = none →
    dictLookup (runModels cfg build ms st).state.error_dict "server"
      = none := by
  induction ms with
  | nil => intro st h; exact h
  | cons m ms ih =>
    intro st h
    have h1 := stepModel_error_dict_no_server cfg build st m h
    simp only [runModels]
    cases hu : (stepModel cfg build st m).uncaught with
    | some e => exact h1
    | none => exact ih _ h1

theorem stepModel_build_failure (cfg : Config)
    (build : RegisteredModel → MVersion → Except String HandlerIntro)
    (st : ServerState) (m : RegisteredModel) (mv : MVersion) (ex : String)
    (hv : get_version cfg.staging m = some mv)
    (hcur : handlerCurrent st (quotePlus m.name) mv = false)
    (htag : tagSkip cfg m = false)
    (hrem : (removeRoutes st.routes
      (cfg.basepath ++ "/" ++ quotePlus m.name)).2 = true)
    (hb : build m mv = .error ex) :
    stepModel cfg build st m =
      ⟨⟨st.model_dict,
        dictInsert st.error_dict "name" ex,
        (removeRoutes st.routes
          (cfg.basepath ++ "/" ++ quotePlus m.name)).1⟩,
       [quotePlus m.name], none⟩ := by
  simp only [stepModel, hv]
  rw [if_neg (by simp [hcur]), if_neg (by simp [htag]),
    if_neg (by simp [hrem]), hb]

/-! ## C7: registry listing failure leaves everything serving -/

/-- C7: when the registry listing fails, the pass records the message
under the reserved key `"server"`, changes neither the handler map nor
the route table, attempts no construction and raises nothing — it
effectively returns at once; when the listing succeeds, the reserved key
is absent from the error map after the pass (it is deleted up front and
the loop only ever writes the keys `"name"` or removes per-model
keys). -/
theorem update_models_listing_failure (cfg : Config)
    (build : RegisteredModel → MVersion → Except String HandlerIntro)
    (st : ServerState) (ex : String) :
    (update_models cfg build (.error ex) st).state.model_dict
      = st.model_dict ∧
    (update_models cfg build (.error ex) st).state.routes = st.routes ∧
    dictLookup (update_models cfg build (.error ex) st).state.error_dict
      "server" = some ex ∧
    (update_models cfg build (.error ex) st).buildCalls = [] ∧
    (update_models cfg build (.error ex) st).uncaught = none ∧
    (∀ ms : List RegisteredModel,
      dictLookup (update_models cfg build (.ok ms) st).state.error_dict
        "server" = none) := by
  refine ⟨rfl, rfl, dictLookup_insert_self st.error_dict "server" ex,
    rfl, rfl, fun ms => ?_⟩
  exact runModels_error_dict_no_server cfg build ms _
    (dictLookup_remove_self st.error_dict "server")

/-! ## C1: what failure of a Handler build leaves behind -/

/-- C1, counterexample: model `a` is served at run `r1` with its route
`/a` published; the registry now offers run `r2` and the build fails.
The prior Handler's map entry survives, but the route table is empty
afterwards — the old route was deleted before the `try` block and is not
restored, so the prior Handler is NOT left reachable, refuting the claim
that its route remains registered. -/
theorem build_failure_removes_route_counterexample :
    stA.routes = ["/a"] ∧
    (update_models cfg0 buildFail (.ok [mA2]) stA).state.routes = [] ∧
    (update_models cfg0 buildFail (.ok [mA2]) stA).state.model_dict
      = [("a", hA1)] := ⟨rfl, rfl, rfl⟩

/-- C1, amended: when building the new Handler fails (at provision,
supervise or introspect time, i.e. whenever the build oracle reports an
error), the prior Handler's entry in the handler map is unchanged and an
error is recorded (under the fixed literal key `"name"`), but the
model's route does not remain registered: it was unregistered before
construction began and is not restored on failure. -/
theorem stepModel_build_failure_state (cfg : Config)
    (build : RegisteredModel → MVersion → Except String HandlerIntro)
    (st : ServerState) (m : RegisteredModel) (mv : MVersion) (ex : String)
    (hv : get_version cfg.staging m = some mv)
    (hcur : handlerCurrent st (quotePlus m.name) mv = false)
    (htag : tagSkip cfg m = false)
    (hrem : (removeRoutes st.routes
      (cfg.basepath ++ "/" ++ quotePlus m.name)).2 = true)
    (hb : build m mv = .error ex) :
    (stepModel cfg build st m).state.model_dict = st.model_dict ∧
    (stepModel cfg build st m).state.error_dict
      = dictInsert st.error_dict "name" ex ∧
    (stepModel cfg build st m).state.routes
      = (removeRoutes st.routes
          (cfg.basepath ++ "/" ++ quotePlus m.name)).1 ∧
    (stepModel cfg build st m).uncaught = none := by
  rw [stepModel_build_failure cfg build st m mv ex hv hcur htag hrem hb]
  exact ⟨rfl, rfl, rfl, rfl⟩

/-- C1, witness: the amended statement evaluated on the concrete failing
update of model `a` from run `r1` to run `r2`. -/
theorem stepModel_build_failure_state_witness :
    (stepModel cfg0 buildFail stA mA2).state.model_dict = stA.model_dict ∧
    (stepModel cfg0 buildFail stA mA2).state.error_dict
      = dictInsert stA.error_dict "name" "boom" ∧
    (stepModel cfg0 buildFail stA mA2).state.routes
      = (removeRoutes stA.routes
          (cfg0.basepath ++ "/" ++ quotePlus mA2.name)).1 ∧
    (stepModel cfg0 buildFail stA mA2).uncaught = none :=
  stepModel_build_failure_state cfg0 buildFail stA mA2 v2 "boom"
    rfl rfl rfl rfl rfl

/-! ## C2: the per-model error key is the literal string "name" -/

/-- C2: with two models `a` and `b` whose builds both fail in one pass,
the source records both errors under the fixed literal key `"name"`
(`self.error_dict["name"] = str(ex)`), the second overwriting the first;
no entry is keyed by either model's own name, refuting the claim that
failures of different models produce distinct error-map entries. -/
theorem error_key_is_literal_name :
    (update_models cfg0 buildFailNamed (.ok [mA1, mB1]) st0).state.error_dict
      = [("name", "fail b")] ∧
    dictLookup (update_models cfg0 buildFailNamed
      (.ok [mA1, mB1]) st0).state.error_dict "a" = none ∧
    dictLookup (update_models cfg0 buildFailNamed
      (.ok [mA1, mB1]) st0).state.error_dict "b" = none :=
  ⟨rfl, rfl, rfl⟩

/-! ## C4: the per-model error boundary -/

/-- C4, counterexample: the first listed descriptor has an empty
`latest_versions`, so desired-version selection raises `IndexError`
outside the `try` block and the pass aborts: the second (perfectly
healthy) descriptor is never processed — no Handler appears for it and
no construction is attempted — refuting the claim that a failure while
processing one descriptor never prevents processing the rest. -/
theorem empty_versions_abort_counterexample :
    (update_models cfg0 buildOk (.ok [mEmptyVers, mB1]) st0).uncaught
      = some "IndexError" ∧
    dictLookup (update_models cfg0 buildOk
      (.ok [mEmptyVers, mB1]) st0).state.model_dict (quotePlus mB1.name)
      = none ∧
    (update_models cfg0 buildOk (.ok [mEmptyVers, mB1]) st0).buildCalls
      = [] := ⟨rfl, rfl, rfl⟩

/-- C4, amended: only the Handler construction runs inside the loop's
error boundary — whatever the build oracle does, a step whose version
selection and route removal succeed raises nothing, and a step that
raises nothing lets the loop go on to the remaining descriptors;
desired-version selection, tag filtering and route removal run outside
the boundary, so an exception there (e.g. a descriptor with no listed
versions) aborts the pass for all remaining descriptors. -/
theorem construction_error_boundary :
    (∀ (cfg : Config)
      (build : RegisteredModel → MVersion → Except String HandlerIntro)
      (st : ServerState) (m : RegisteredModel) (mv : MVersion),
      get_version cfg.staging m = some mv →
      (removeRoutes st.routes
        (cfg.basepath ++ "/" ++ quotePlus m.name)).2 = true →
      (stepModel cfg build st m).uncaught = none) ∧
    (∀ (cfg : Config)
      (build : RegisteredModel → MVersion → Except String HandlerIntro)
      (st : ServerState) (m : RegisteredModel) (ms : List RegisteredModel),
      (stepModel cfg build st m).uncaught = none →
      runModels cfg build (m :: ms) st =
        ⟨(runModels cfg build ms (stepModel cfg build st m).state).state,
         (stepModel cfg build st m).buildCalls
           ++ (runModels cfg build ms
                (stepModel cfg build st m).state).buildCalls,
         (runModels cfg build ms
           (stepModel cfg build st m).state).uncaught⟩) := by
  constructor
  · intro cfg build st m mv hv hrem
    exact stepModel_uncaught_none cfg build st m mv hv hrem
  · intro cfg build st m ms h
    simp only [runModels, h]

/-- C4, witness: the error boundary evaluated on the concrete failing
build of model `a` (no exception escapes) and the loop continuation over
a two-descriptor listing. -/
theorem construction_error_boundary_witness :
    (stepModel cfg0 buildFail stA mA2).uncaught = none ∧
    runModels cfg0 buildFail (mA1 :: [mB1]) st0 =
      ⟨(runModels cfg0 buildFail [mB1]
          (stepModel cfg0 buildFail st0 mA1).state).state,
       (stepModel cfg0 buildFail st0 mA1).buildCalls
         ++ (runModels cfg0 buildFail [mB1]
              (stepModel cfg0 buildFail st0 mA1).state).buildCalls,
       (runModels cfg0 buildFail [mB1]
         (stepModel cfg0 buildFail st0 mA1).state).uncaught⟩ :=
  ⟨construction_error_boundary.1 cfg0 buildFail stA mA2 v2 rfl rfl,
   construction_error_boundary.2 cfg0 buildFail st0 mA1 [mB1] rfl⟩

/-! ## C9: skip rule and second-pass idempotence -/

/-- C9, counterexample: model `a`'s build fails on the first pass, so no
Handler becomes active for it; a second pass against the unchanged
registry listing attempts the build — and hence provisioning — again
(`buildCalls = ["a"]`, not `[]`), refuting the unconditional reading of
"reconciling twice against an unchanged registry performs zero
provisioning on the second pass". -/
theorem failed_build_retry_counterexample :
    (update_models cfg0 buildFail (.ok [mA1])
      (update_models cfg0 buildFail (.ok [mA1]) st0).state).buildCalls
      = ["a"] := rfl

/-- C9, amended: if an active Handler exists for a model name with the
run id of the desired version, the step for that model is a strict no-op
(no provisioning, no Handler replacement, no route change); consequently
a pass over a listing in which every model is converged — already served
at its desired run id, or tag-skipped — changes nothing and attempts no
provisioning.  Reconciling twice against an unchanged registry therefore
performs zero provisioning and zero route churn on the second pass
provided the first pass left every listed model converged (in
particular, when every construction it attempted succeeded); a model
whose construction failed is not converged and is re-provisioned. -/
theorem reconcile_skip_and_idempotence :
    (∀ (cfg : Config)
      (build : RegisteredModel → MVersion → Except String HandlerIntro)
      (st : ServerState) (m : RegisteredModel) (mv : MVersion),
      get_version cfg.staging m = some mv →
      handlerCurrent st (quotePlus m.name) mv = true →
      stepModel cfg build st m = ⟨st, [], none⟩) ∧
    (∀ (cfg : Config)
      (build : RegisteredModel → MVersion → Except String HandlerIntro)
      (ms : List RegisteredModel) (st : ServerState),
      Converged cfg st ms →
      runModels cfg build ms st = ⟨st, [], none⟩) :=
  ⟨fun cfg build st m mv hv hc =>
    stepModel_noop cfg build st m mv hv (Or.inl hc),
   fun cfg build ms st hc =>
    runModels_noop_of_converged cfg build ms st hc⟩

/-- C9, witness: the state serving model `a` at run `r1` is left exactly
as is — no build attempted, nothing raised — both by the single step for
`a` and by a whole pass over the one-model listing. -/
theorem reconcile_skip_and_idempotence_witness :
    stepModel cfg0 buildOk stA mA1 = ⟨stA, [], none⟩ ∧
    runModels cfg0 buildOk [mA1] stA = ⟨stA, [], none⟩ :=
  ⟨reconcile_skip_and_idempotence.1 cfg0 buildOk stA mA1 v1 rfl rfl,
   reconcile_skip_and_idempotence.2 cfg0 buildOk [mA1] stA (by
     intro m hm
     rw [List.mem_singleton] at hm
     subst hm
     exact ⟨v1, rfl, Or.inl rfl⟩)⟩

end MPS
